import Mathlib

/-!
Shallow embedding of the multi-agent research pipeline
(orchestrator, retrieval filter, provider fan-out, progress bus, cache)
with theorems checking the specification claims against the code.

Conventions used throughout:
* LLM replies and external provider outcomes are oracle inputs
  (`Except Unit String`, `Except Unit (List _)`), quantified over in the
  theorems, since the code makes no assumption about their shape.
* Python float arithmetic on small integer-derived values is modelled
  exactly: `int(w * (p / 100))` becomes `w * p / 100` in `Nat` (floor),
  and the lexical relevance score `(hits / kwCount) * boost` is kept as
  the order-isomorphic scaled integer `hits * (6 or 5)` for a fixed
  query, since all compared scores share the denominator `5 * kwCount`.
-/

namespace ResearchPipeline

/-- A retrieved source candidate, carrying the fields of the Python source
dicts that the pipeline reads: title, url, snippet, source type and the
API that produced it. -/
structure Source where
  title : String
  url : String
  snippet : String
  sourceType : String
  apiSource : String
deriving DecidableEq

/-- An extracted research finding (content plus the raw source-reference
string), as produced by the researcher and stored by the orchestrator. -/
structure Finding where
  content : String
  sourceRefs : String
deriving DecidableEq

/-! ## Provider-response cache (redis_cache.py) -/

/-- One stored redis entry: the serialized value and its absolute expiry
instant. -/
structure CacheEntry where
  value : String
  expiresAt : Int
deriving DecidableEq

/-- The redis key/value backend visible to one cache client. -/
abbrev RedisStore := List (String × CacheEntry)

/-- Associative update of the backend, replacing an existing key in place. -/
def storePut (st : RedisStore) (k : String) (e : CacheEntry) : RedisStore :=
  match st with
  | [] => [(k, e)]
  | (k0, e0) :: rest =>
      if k0 = k then (k, e) :: rest else (k0, e0) :: storePut rest k e

/-- Lookup of a key in the backend. -/
def storeLookup (st : RedisStore) (k : String) : Option CacheEntry :=
  match st with
  | [] => none
  | (k0, e0) :: rest => if k0 = k then some e0 else storeLookup rest k

/-- Redis SETEX semantics: a non-positive expiry is rejected with an
"invalid expire time" error and nothing is stored; otherwise the key is
stored with absolute expiry `now + ttl`. -/
def redisSetex (st : RedisStore) (now : Int) (k : String) (ttl : Int)
    (v : String) : Except Unit RedisStore :=
  if ttl ≤ 0 then Except.error () else Except.ok (storePut st k ⟨v, now + ttl⟩)

/-- Redis GET at instant `now`: a stored entry is visible until its expiry. -/
def redisGet (st : RedisStore) (now : Int) (k : String) : Option String :=
  match storeLookup st k with
  | none => none
  | some e => if now < e.expiresAt then some e.value else none

/-- Default TTL from config.py (`CACHE_TTL`, 24 hours). -/
def cacheTtlDefault : Int := 86400

/-- Model of `RedisCache.set`: no-op when the client is unavailable;
otherwise `ttl = ttl or settings.cache_ttl` replaces both `None` and `0`
by the default TTL (Python falsiness), and any backend error is caught
and logged, leaving the store unchanged. -/
def cacheSet (available : Bool) (st : RedisStore) (now : Int) (k : String)
    (v : String) (ttl : Option Int) : RedisStore :=
  if available then
    let t : Int :=
      match ttl with
      | none => cacheTtlDefault
      | some t0 => if t0 = 0 then cacheTtlDefault else t0
    match redisSetex st now k t v with
    | Except.ok st2 => st2
    | Except.error _ => st
  else st

/-- Model of `RedisCache.get`: `none` (MISS) when unavailable, on backend
miss, or after expiry. -/
def cacheGet (available : Bool) (st : RedisStore) (now : Int) (k : String) :
    Option String :=
  if available then redisGet st now k else none

/-! ## Weighted progress computation (research_service.py) -/

/-- Sources handed to finding extraction: `ResearcherAgent.execute` calls
`_extract_key_info(query, relevant_sources[:40])`. -/
def extractionInput (relevant : List Source) : List Source := relevant.take 40

/-- Cap declared inside `_extract_key_info`: 60 sources in deep mode,
45 otherwise. -/
def extractMaxToProcess (isDeep : Bool) : Nat := if isDeep then 60 else 45

/-- Batch start offsets: `range(0, min(len(sources), max_to_process), 15)`. -/
def batchStarts (bound : Nat) : List Nat :=
  (List.range ((bound + 14) / 15)).map (fun i => i * 15)

/-- The batches submitted to the extraction LLM, each a 15-element slice
`sources[start : start + 15]`. -/
def extractionBatches (sources : List Source) (isDeep : Bool) :
    List (List Source) :=
  (batchStarts (min sources.length (extractMaxToProcess isDeep))).map
    (fun st => (sources.drop st).take 15)

/-- All sources offered to finding extraction in one researcher run. -/
def offeredForExtraction (relevant : List Source) (isDeep : Bool) :
    List Source :=
  (extractionBatches (extractionInput relevant) isDeep).flatten

/-- A list of identical placeholder sources, used to evaluate the
extraction bound on a run that filtered `n` relevant sources. -/
def demoSources (n : Nat) : List Source :=
  List.replicate n ⟨"t", "u", "s", "web", "g"⟩

/-! ## Orchestrator (orchestrator.py, user_proxy.py) -/

/-- A value stored in the in-memory hand-off context dict. Payload-bearing
variants (`srcs`, `fnds`) exist so that the absence of raw payloads in the
orchestrator context is expressible; `blob` stands for values (such as the
research plan) whose content no claim inspects. -/
inductive CtxVal where
  | str (s : String)
  | num (n : Nat)
  | strs (l : List String)
  | counts (c : List (String × Nat))
  | srcs (l : List Source)
  | fnds (l : List Finding)
  | blob
deriving DecidableEq

/-- The hand-off context dict, as an association list. -/
abbrev Ctx := List (String × CtxVal)

/-- Dict update: replace the key in place or append it. -/
def ctxSet (ctx : Ctx) (k : String) (v : CtxVal) : Ctx :=
  match ctx with
  | [] => [(k, v)]
  | (k0, v0) :: rest =>
      if k0 = k then (k, v) :: rest else (k0, v0) :: ctxSet rest k v

/-- Dict lookup. -/
def ctxLookup (ctx : Ctx) (k : String) : Option CtxVal :=
  match ctx with
  | [] => none
  | (k0, v0) :: rest => if k0 = k then some v0 else ctxLookup rest k

/-- Model of `context.get(key, "")` for string values. -/
def ctxGetStr (ctx : Ctx) (k : String) : String :=
  match ctxLookup ctx k with
  | some (CtxVal.str s) => s
  | _ => ""

/-- Model of `context.get(key, default)` for numeric values, with the
default of the call site. -/
def ctxGetNat (ctx : Ctx) (k : String) (d : Nat) : Nat :=
  match ctxLookup ctx k with
  | some (CtxVal.num n) => n
  | _ => d

/-- Model of `context.get(key, [])` for finding lists. -/
def ctxGetFnds (ctx : Ctx) (k : String) : List Finding :=
  match ctxLookup ctx k with
  | some (CtxVal.fnds l) => l
  | _ => []

/-- Model of `context.get(key, [])` for source lists. -/
def ctxGetSrcs (ctx : Ctx) (k : String) : List Source :=
  match ctxLookup ctx k with
  | some (CtxVal.srcs l) => l
  | _ => []

/-- Confidence summary artifact, with the fields the orchestrator writes
in its verify-failure fallback. -/
structure ConfidenceSummary where
  overall : ℚ
  level : String
  verified : Nat
  total : Nat
  note : String
deriving DecidableEq

/-- A value stored under a pipeline-data key. -/
inductive PipeVal where
  | conf (c : ConfidenceSummary)
  | fnds (l : List Finding)
  | blob
deriving DecidableEq

/-- The durable store for one session: source documents, finding
documents and pipeline-data key/values. -/
structure Store where
  sources : List Source
  findings : List Finding
  pipeline : List (String × PipeVal)
deriving DecidableEq

/-- Associative update of pipeline data (`save_pipeline_data`). -/
def pipelinePutList (l : List (String × PipeVal)) (k : String) (v : PipeVal) :
    List (String × PipeVal) :=
  match l with
  | [] => [(k, v)]
  | (k0, v0) :: rest =>
      if k0 = k then (k, v) :: rest else (k0, v0) :: pipelinePutList rest k v

/-- Store update with one pipeline-data key. -/
def pipelinePut (st : Store) (k : String) (v : PipeVal) : Store :=
  { st with pipeline := pipelinePutList st.pipeline k v }

/-- Lookup in a pipeline-data association list. -/
def pipelineGetList (l : List (String × PipeVal)) (k : String) :
    Option PipeVal :=
  match l with
  | [] => none
  | (k0, v0) :: rest => if k0 = k then some v0 else pipelineGetList rest k

/-- Pipeline-data lookup (`get_pipeline_data`). -/
def pipelineGet (st : Store) (k : String) : Option PipeVal :=
  pipelineGetList st.pipeline k

/-- Number of persisted sources (`SourceRepository.count_by_research`). -/
def countSources (st : Store) : Nat := st.sources.length

/-- Result of the user proxy stage as the orchestrator consumes it:
the `approved` flag and the prepared final context (absent when the agent
failed or returned no context, in which case the orchestrator falls back
to its own context). -/
structure UserProxyResult where
  approved : Bool
  finalContext : Option Ctx

/-- Result of one researcher execution as the orchestrator consumes it. -/
structure ResearcherResult where
  failed : Bool
  errMsg : String
  sources : List Source
  rawFindings : List Finding
  sourcesCount : List (String × Nat)

/-- Result of the analyst stage (restricted to the claim-relevant
`organized_findings` artifact). -/
structure AnalystResult where
  failed : Bool
  errMsg : String
  organized : List Finding

/-- Result of the fact-checker stage (restricted to the claim-relevant
artifacts). -/
structure FactCheckerResult where
  failed : Bool
  errMsg : String
  validated : List Finding
  confidence : Option ConfidenceSummary

/-- Result of the report-generator stage. -/
structure ReportResult where
  failed : Bool
  errMsg : String

/-- Oracle bundle describing one run: what each agent execution returns
(covering success, raised exception and `asyncio` timeout alike, since the
orchestrator maps the latter two to a failed result), and at which
agent-boundary checks the cancellation flag has been set by a concurrent
`cancel()` call. -/
structure Oracles where
  userProxy : UserProxyResult
  researcher1 : ResearcherResult
  researcher2 : ResearcherResult
  analyst : AnalystResult
  factChecker : FactCheckerResult
  reportGen : ReportResult
  cancelAt : Nat → Bool

/-- Caller-provided arguments of `AgentOrchestrator.execute`. -/
structure ExecInput where
  sessionId : String
  query : String
  focusAreas : List String
  sourcePrefs : List String
  maxSources : Nat
  researchMode : String
  reportFormat : String
  citationStyle : String

/-- Orchestrator instance state relevant to cancellation. -/
structure OrchState where
  isCancelled : Bool

/-- Outcome of a run: final status, final store, accumulated error list,
and the trace of agent invocations with the context each received. -/
structure ExecResult where
  status : String
  store : Store
  errors : List String
  trace : List (String × Ctx)

/-- The fallback confidence summary the orchestrator persists when the
verify stage fails (orchestrator.py lines 294-303). -/
def fallbackConfidence : ConfidenceSummary :=
  ⟨1/2, "medium", 0, 0, "Fact-checking failed; findings are unverified"⟩

/-- Persistence of researcher output: bulk-insert of `sources[:200]` and
all raw findings (`_persist_researcher_output`). -/
def persistResearcher (st : Store) (r : ResearcherResult) : Store :=
  { st with
      sources := st.sources ++ r.sources.take 200,
      findings := st.findings ++ r.rawFindings }

/-- Persistence of analyst output: pipeline keys are written only when
truthy (`_persist_analyst_output`). -/
def persistAnalyst (st : Store) (r : AnalystResult) : Store :=
  if r.organized = [] then st
  else pipelinePut st "organized_findings" (PipeVal.fnds r.organized)

/-- Persistence of fact-checker output on success
(`_persist_fact_checker_output`). -/
def persistFactChecker (st : Store) (r : FactCheckerResult) : Store :=
  let st1 :=
    if r.validated = [] then st
    else pipelinePut st "validated_findings" (PipeVal.fnds r.validated)
  match r.confidence with
  | none => st1
  | some c => pipelinePut st1 "confidence_summary" (PipeVal.conf c)

/-- The tail of the pipeline after the retrieve stage: analyst,
fact checker (degradation-tolerant) and report generator, with the
cancellation flag checked before each agent execution. `idx` is the
index of the next agent-boundary check. -/
def execTail (orc : Oracles) (idx : Nat) (ctx2 : Ctx) (st : Store)
    (tr : List (String × Ctx)) (errs : List String) : ExecResult :=
  if orc.cancelAt idx then
    { status := "cancelled", store := st, errors := errs, trace := tr }
  else
    let ar := orc.analyst
    let tr2 := tr ++ [("analyst", ctx2)]
    if ar.failed then
      { status := "failed", store := st,
        errors := errs ++ ["analyst: " ++ ar.errMsg], trace := tr2 }
    else
      let st2 := persistAnalyst st ar
      if orc.cancelAt (idx + 1) then
        { status := "cancelled", store := st2, errors := errs, trace := tr2 }
      else
        let fr := orc.factChecker
        let tr3 := tr2 ++ [("fact_checker", ctx2)]
        let stErr :=
          if fr.failed then
            (pipelinePut st2 "confidence_summary"
                (PipeVal.conf fallbackConfidence),
              errs ++ ["Fact-checking incomplete"])
          else (persistFactChecker st2 fr, errs)
        if orc.cancelAt (idx + 2) then
          { status := "cancelled", store := stErr.1, errors := stErr.2,
            trace := tr3 }
        else
          let rg := orc.reportGen
          let tr4 := tr3 ++ [("report_generator", ctx2)]
          if rg.failed then
            { status := "failed", store := stErr.1,
              errors := stErr.2 ++ ["report_generator: " ++ rg.errMsg],
              trace := tr4 }
          else
            { status := "completed", store := stErr.1, errors := stErr.2,
              trace := tr4 }

/-- The context the orchestrator builds from its own arguments. -/
def baseCtxOf (inp : ExecInput) : Ctx :=
  [("query", CtxVal.str inp.query),
   ("focus_areas", CtxVal.strs inp.focusAreas),
   ("source_preferences", CtxVal.strs inp.sourcePrefs),
   ("max_sources", CtxVal.num inp.maxSources),
   ("research_mode", CtxVal.str inp.researchMode),
   ("report_format", CtxVal.str inp.reportFormat),
   ("citation_style", CtxVal.str inp.citationStyle)]

/-- The user proxy final context after the orchestrator safeguard
`final_context["query"] = query` (orchestrator.py line 191). -/
def safeguardedCtx (inp : ExecInput) (orc : Oracles) : Ctx :=
  ctxSet (orc.userProxy.finalContext.getD (baseCtxOf inp)) "query"
    (CtxVal.str inp.query)

/-- The broadened retry context built when zero sources were persisted:
query replaced by the original plus a broadening suffix, and max sources
raised to at least 100 (orchestrator.py lines 231-233). -/
def retryCtxOf (inp : ExecInput) (orc : Oracles) : Ctx :=
  ctxSet
    (ctxSet (safeguardedCtx inp orc) "query"
      (CtxVal.str (inp.query ++ " overview research analysis")))
    "max_sources" (CtxVal.num (max inp.maxSources 100))

/-- The lightweight hand-off context given to the analyst, fact checker
and report generator: the safeguarded context plus the session id and the
cached source counters (orchestrator.py lines 246-247). -/
def handoffCtxOf (inp : ExecInput) (orc : Oracles)
    (counts : List (String × Nat)) : Ctx :=
  ctxSet (ctxSet (safeguardedCtx inp orc) "session_id"
      (CtxVal.str inp.sessionId))
    "sources_count" (CtxVal.counts counts)

/-- Model of `AgentOrchestrator.execute`: resets the cancellation flag on
entry, runs the five stages in order, applies the original-query
safeguard after the user proxy, persists researcher output and retries
once with a broadened query when zero sources were persisted, and hands
every downstream stage the lightweight context. Supervised checkpoints
only sleep in the source and are omitted. -/
def execute (s0 : OrchState) (inp : ExecInput) (orc : Oracles)
    (st0 : Store) : ExecResult :=
  let s1 : OrchState := { isCancelled := false }
  if s1.isCancelled || orc.cancelAt 0 then
    { status := "cancelled", store := st0, errors := [], trace := [] }
  else
    let tr0 := [("user_proxy", baseCtxOf inp)]
    if orc.userProxy.approved then
      if orc.cancelAt 1 then
        { status := "cancelled", store := st0, errors := [], trace := tr0 }
      else
        let rr1 := orc.researcher1
        let tr1 := tr0 ++ [("researcher", safeguardedCtx inp orc)]
        if rr1.failed then
          { status := "failed", store := st0,
            errors := ["researcher: " ++ rr1.errMsg], trace := tr1 }
        else
          let st1 := persistResearcher st0 rr1
          if countSources st1 = 0 then
            if orc.cancelAt 2 then
              { status := "cancelled", store := st1, errors := [],
                trace := tr1 }
            else
              let rr2 := orc.researcher2
              let tr2 := tr1 ++ [("researcher", retryCtxOf inp orc)]
              if rr2.failed then
                execTail orc 3 (handoffCtxOf inp orc rr1.sourcesCount) st1
                  tr2 []
              else
                execTail orc 3 (handoffCtxOf inp orc rr2.sourcesCount)
                  (persistResearcher st1 rr2) tr2 []
          else
            execTail orc 2 (handoffCtxOf inp orc rr1.sourcesCount) st1 tr1 []
    else { status := "rejected", store := st0, errors := [], trace := tr0 }

/-- Trace entries of researcher executions within a run. -/
def researcherInvocations (res : ExecResult) : List (String × Ctx) :=
  res.trace.filter (fun p => p.1 = "researcher")

/-- Model of `UserProxyAgent._prepare_final_context`: the original query
is kept as the primary query (replaced only by an explicit supervised-mode
user modification, never by the LLM clarification), and the clarified
variant is carried separately under `search_hints`. -/
def prepareFinalContext (query clarified : String) (modsQuery : Option String)
    (planFocus planPrefs : List String) (origCtx : Ctx) : Ctx :=
  let finalQuery :=
    match modsQuery with
    | some q2 => q2
    | none => query
  [("query", CtxVal.str finalQuery),
   ("original_query", CtxVal.str query),
   ("search_hints", CtxVal.str (if clarified ≠ query then clarified else "")),
   ("focus_areas", CtxVal.strs planFocus),
   ("source_preferences", CtxVal.strs planPrefs),
   ("max_sources", (ctxLookup origCtx "max_sources").getD (CtxVal.num 300)),
   ("report_format",
     (ctxLookup origCtx "report_format").getD (CtxVal.str "markdown")),
   ("citation_style",
     (ctxLookup origCtx "citation_style").getD (CtxVal.str "APA")),
   ("research_mode",
     (ctxLookup origCtx "research_mode").getD (CtxVal.str "auto")),
   ("research_plan", CtxVal.blob)]

/-- Inputs of `ReportGeneratorAgent.execute`: read exclusively from the
in-memory context dict (the agent performs no store reads), with the
fallback chain validated → organized → consolidated → raw. -/
structure RGInputs where
  findings : List Finding
  sources : List Source
deriving DecidableEq

/-- The findings and sources the report generator works with, as selected
by report_generator.py lines 77-91 — note the store is not consulted. -/
def reportGeneratorInputs (ctx : Ctx) : RGInputs :=
  let f0 := ctxGetFnds ctx "validated_findings"
  let f1 := if f0 = [] then ctxGetFnds ctx "organized_findings" else f0
  let f2 := if f1 = [] then ctxGetFnds ctx "consolidated_findings" else f1
  let f3 := if f2 = [] then ctxGetFnds ctx "raw_findings" else f2
  ⟨f3, ctxGetSrcs ctx "sources"⟩

/-- The findings the fact checker works with: loaded from the store by
session id when one is present, with the context-based fallback chain
(fact_checker.py lines 74-97). -/
def factCheckerLoadedFindings (ctx : Ctx) (st : Store) : List Finding :=
  let fs :=
    if ctxGetStr ctx "session_id" ≠ "" then
      match pipelineGet st "organized_findings" with
      | some (PipeVal.fnds l) => l
      | _ => []
    else ctxGetFnds ctx "organized_findings"
  let fs1 := if fs = [] then ctxGetFnds ctx "consolidated_findings" else fs
  if fs1 = [] then ctxGetFnds ctx "raw_findings" else fs1

/-- The keys the orchestrator hand-off context may carry: session id,
query data, lightweight parameters and cached counters — no raw payloads. -/
def lightweightKeys : List String :=
  ["query", "original_query", "search_hints", "focus_areas",
   "source_preferences", "max_sources", "research_mode", "report_format",
   "citation_style", "research_plan", "session_id", "sources_count"]

/-! ## Provider fan-out (search_tools.py) -/

/-- The five logical search providers queried by `SearchTools.search_all`. -/
inductive Provider where
  | google
  | newsapi
  | arxiv
  | pubmed
  | wikipedia
deriving DecidableEq

/-- The fixed provider key order of `api_names` in the source. -/
def allProviders : List Provider :=
  [Provider.google, Provider.newsapi, Provider.arxiv, Provider.pubmed,
   Provider.wikipedia]

/-- Model of the `_run` wrapper around one provider call: a call that
raised is caught and contributes an empty result list, so no exception
escapes the fan-out. -/
def settleProvider (o : Except Unit (List Source)) : List Source :=
  match o with
  | Except.ok l => l
  | Except.error _ => []

/-- The output map of `search_all`: `dict(zip(api_names, raw_results))`,
one entry per configured provider key in fixed key order, independent of
completion order. -/
def searchAllMap (outcome : Provider → Except Unit (List Source)) :
    List (Provider × List Source) :=
  allProviders.map (fun pr => (pr, settleProvider (outcome pr)))

/-- Dict lookup in the fan-out output map. -/
def mapLookup (m : List (Provider × List Source)) (pr : Provider) :
    Option (List Source) :=
  match m with
  | [] => none
  | (p0, v) :: rest => if p0 = pr then some v else mapLookup rest pr

/-- One invocation of the per-completion callback
`on_api_complete(api_name, count, done, total)`. -/
structure CallbackCall where
  api : Provider
  count : Nat
  done : Nat
  total : Nat
deriving DecidableEq

/-- Callback invocations of a fan-out whose provider calls complete in
the given order: each `_run` fires the callback exactly once after its
own call completed or failed, with the incremented shared completion
counter `done0 + 1` and the fixed provider total. -/
def callbacksGo (outcome : Provider → Except Unit (List Source))
    (done0 : Nat) : List Provider → List CallbackCall
  | [] => []
  | pr :: rest =>
      ⟨pr, (settleProvider (outcome pr)).length, done0 + 1,
        allProviders.length⟩ :: callbacksGo outcome (done0 + 1) rest

/-- All callback invocations of one fan-out, given the completion order
(an oracle: the source gives no ordering guarantee among providers). -/
def searchAllCallbacks (outcome : Provider → Except Unit (List Source))
    (order : List Provider) : List CallbackCall :=
  callbacksGo outcome 0 order

/-! ## Retrieval dedup and relevance filter (researcher.py)

String helpers are written over `List Char` so concrete runs evaluate
inside the kernel. -/

/-- Python `str.lower()`. -/
def pyLower (s : String) : String := String.mk (s.toList.map Char.toLower)

/-- Python `str.upper()`. -/
def pyUpper (s : String) : String := String.mk (s.toList.map Char.toUpper)

/-- Removal of leading whitespace from a character list. -/
def trimLeadingWs : List Char → List Char
  | [] => []
  | c :: rest => if c.isWhitespace then trimLeadingWs rest else c :: rest

/-- Python `str.strip()`: whitespace removed from both ends. -/
def pyStrip (s : String) : String :=
  String.mk ((trimLeadingWs (trimLeadingWs s.toList).reverse).reverse)

/-- Helper of `pySplit`, accumulating the current token in reverse. -/
def splitWsGo (cur : List Char) : List Char → List String
  | [] => if cur = [] then [] else [String.mk cur.reverse]
  | c :: rest =>
      if c.isWhitespace then
        if cur = [] then splitWsGo [] rest
        else String.mk cur.reverse :: splitWsGo [] rest
      else splitWsGo (c :: cur) rest

/-- Python `str.split()` with no argument: split on whitespace runs,
dropping empty tokens. -/
def pySplit (s : String) : List String := splitWsGo [] s.toList

/-- Python `needle in hay` substring containment. -/
def isSubstring (needle hay : String) : Bool :=
  hay.toList.tails.any (fun t => needle.toList.isPrefixOf t)

/-- Helper of `parsedIndices`: maximal digit runs of a character list as
numbers, with the run being accumulated in `cur`. -/
def digitRunsGo (cur : Option Nat) : List Char → List Nat
  | [] =>
      match cur with
      | some v => [v]
      | none => []
  | c :: rest =>
      if c.isDigit then
        let d := c.toNat - 48
        match cur with
        | some v => digitRunsGo (some (v * 10 + d)) rest
        | none => digitRunsGo (some d) rest
      else
        match cur with
        | some v => v :: digitRunsGo none rest
        | none => digitRunsGo none rest

/-- Model of `re.findall(r'\d+', s)` followed by `int(...)`: the maximal
digit runs of the reply, in order. -/
def parsedIndices (s : String) : List Nat := digitRunsGo none s.toList

/-- The fixed stop-word set of `_filter_relevant_sources`. -/
def stopWords : List String :=
  ["the", "a", "an", "is", "are", "was", "were", "of", "in", "on", "at",
   "to", "for", "and", "or", "but", "not", "with", "how", "what", "why",
   "when", "where", "which", "who", "does", "do", "can", "could", "would",
   "should", "its", "it", "this", "that", "these", "those", "has", "have",
   "had", "will", "be", "been", "being", "from", "by", "about", "into",
   "through", "during", "before", "after", "above", "below", "between",
   "under", "over", "then", "than", "so", "if"]

/-- Query keywords: the set of distinct lowercased whitespace tokens of
the query minus the stop words (`set(query.lower().split()) - stop_words`;
set iteration order is irrelevant, only membership and cardinality are
used). -/
def queryKeywords (query : String) : List String :=
  ((pySplit (pyLower query)).dedup).filter (fun w => ¬ stopWords.contains w)

/-- The lexical relevance score of one source, kept as the exact integer
`hits * (6 if academic else 5)`. The source computes the float
`(hits / max(kwCount, 1)) * (1.2 if academic else 1.0)`; for a fixed
query all compared scores share the positive denominator
`5 * max(kwCount, 1)`, so this scaled integer induces the same order and
the same threshold comparisons, up to float rounding at exact-boundary
ties which no proved property depends on. -/
def scoreNum (kws : List String) (s : Source) : Nat :=
  let combined := pyLower s.title ++ " " ++ pyLower s.snippet
  let hits := (kws.filter (fun kw => isSubstring kw combined)).length
  hits * (if s.sourceType = "academic" then 6 else 5)

/-- The fallback threshold `relevance_score >= 0.1` of the batch-failure
path, as the exact cross-multiplied comparison
`hits * boost / max(kwCount,1) >= 1/10  ↔  2 * scoreNum >= max(kwCount,1)`. -/
def passesFallbackThreshold (kws : List String) (s : Source) : Bool :=
  max kws.length 1 ≤ 2 * scoreNum kws s

/-- Stable insertion into a descending-sorted list: the new element goes
before the first element whose key is not larger. -/
def insertDesc (k : α → Nat) (s : α) : List α → List α
  | [] => [s]
  | x :: xs => if k x ≤ k s then s :: x :: xs else x :: insertDesc k s xs

/-- Stable descending sort by a numeric key. A stable sort is uniquely
determined by the key order, so this equals the output of Python
`list.sort(key=..., reverse=True)` (Timsort, also stable). -/
def sortDesc (k : α → Nat) : List α → List α
  | [] => []
  | x :: xs => insertDesc k x (sortDesc k xs)

/-- Helper of `chunksOf` with explicit fuel so that it evaluates in the
kernel; fuel at least the list length is always enough. -/
def chunksFuel (n : Nat) : Nat → List α → List (List α)
  | _, [] => []
  | 0, _ :: _ => []
  | fuel + 1, x :: xs => (x :: xs).take n :: chunksFuel n fuel ((x :: xs).drop n)

/-- Batches `l[i : i + n]` for `i = 0, n, 2n, …`
(`range(0, len(l), n)` slicing). -/
def chunksOf (n : Nat) (l : List α) : List (List α) :=
  chunksFuel n l.length l

/-- The sources kept from one LLM relevance batch: on an LLM exception,
the keyword-score fallback for that batch only; on a reply, nothing if
the stripped reply uppercases to NONE, otherwise the batch elements at
each parsed in-range index, in reply order (researcher.py lines 306-342). -/
def batchSelect (resp : Except Unit String) (kws : List String)
    (batch : List Source) : List Source :=
  match resp with
  | Except.error _ => batch.filter (fun s => passesFallbackThreshold kws s)
  | Except.ok r =>
      let rs := pyStrip r
      if pyUpper rs = "NONE" then []
      else (parsedIndices rs).filterMap (fun i => batch[i]?)

/-- All batch selections concatenated, the LLM oracle being indexed by
batch number. -/
def selectChunks (llm : Nat → Except Unit String) (kws : List String)
    (i : Nat) : List (List Source) → List Source
  | [] => []
  | b :: rest => batchSelect (llm i) kws b ++ selectChunks llm kws (i + 1) rest

/-- The minimum-guarantee refill: walk the lexical ordering, append
unseen sources, and stop as soon as 50 are reached (researcher.py lines
349-356). -/
def refillGo (relevant : List Source) : List Source → List Source
  | [] => relevant
  | s :: rest =>
      let r2 := if s ∈ relevant then relevant else relevant ++ [s]
      if 50 ≤ r2.length then r2 else refillGo r2 rest

/-- Model of `_filter_relevant_sources`: lexical scoring, stable
descending sort, top-150 candidates, LLM batch filtering in batches of
20, and the under-10 refill from the top-50 of the lexical ordering. -/
def filterRelevantSources (query : String) (llm : Nat → Except Unit String)
    (sources : List Source) : List Source :=
  if sources = [] then []
  else
    let kws := queryKeywords query
    let sorted := sortDesc (scoreNum kws) sources
    let cands := sorted.take 150
    let relevant := selectChunks llm kws 0 (chunksOf 20 cands)
    if relevant.length < 10 then refillGo relevant (sorted.take 50)
    else relevant

/-- Helper of `dedupByUrl` carrying the set of seen URLs. -/
def dedupByUrlGo (seen : List String) : List Source → List Source
  | [] => []
  | s :: rest =>
      if s.url ≠ "" ∧ s.url ∉ seen then s :: dedupByUrlGo (s.url :: seen) rest
      else dedupByUrlGo seen rest

/-- URL deduplication of `ResearcherAgent.execute` lines 145-151: keep
the first occurrence of each non-empty URL. -/
def dedupByUrl (l : List Source) : List Source := dedupByUrlGo [] l

/-- The source set returned by one retrieve execution, starting from the
accumulated raw search results: deduplication, two-phase relevance
filtering with refill, and the `[:max_sources]` truncation
(researcher.py lines 144-159). -/
def researcherSelectSources (query : String)
    (llm : Nat → Except Unit String) (allSources : List Source)
    (maxSources : Nat) : List Source :=
  (filterRelevantSources query llm (dedupByUrl allSources)).take maxSources

/-- A concrete fan-out outcome: the news provider raises, the pubmed
provider returns nothing, the rest return one source each. -/
def fanoutDemoOutcome : Provider → Except Unit (List Source)
  | Provider.newsapi => Except.error ()
  | Provider.pubmed => Except.ok []
  | _ => Except.ok [⟨"t", "u", "s", "web", "g"⟩]

/-! ## Demonstration data for concrete-run theorems -/

/-- A concrete retrieved source. -/
def demoSource : Source :=
  ⟨"Battery recycling", "https://example.org/a", "EU recycling rates", "web",
    "google"⟩

/-- A concrete extracted finding. -/
def demoFinding : Finding := ⟨"Recycling rates rise", "[1]"⟩

/-- A user proxy outcome that approves and returns no context of its own,
so the orchestrator falls back to its base context. -/
def okUserProxy : UserProxyResult := ⟨true, none⟩

/-- A successful researcher outcome with one source and one finding. -/
def okResearcher : ResearcherResult :=
  ⟨false, "", [demoSource], [demoFinding], [("google", 1)]⟩

/-- A successful researcher outcome that found nothing. -/
def emptyResearcher : ResearcherResult := ⟨false, "", [], [], [("google", 0)]⟩

/-- A successful analyst outcome with one organized finding. -/
def okAnalyst : AnalystResult := ⟨false, "", [demoFinding]⟩

/-- A failed fact-checker outcome (raised exception or timeout). -/
def failedFactChecker : FactCheckerResult := ⟨true, "verify crashed", [], none⟩

/-- A successful fact-checker outcome. -/
def okFactChecker : FactCheckerResult :=
  ⟨false, "", [demoFinding], some ⟨3 / 4, "medium", 1, 1, "ok"⟩⟩

/-- Oracles of a fully successful, never-cancelled run. -/
def demoOracles : Oracles :=
  ⟨okUserProxy, okResearcher, okResearcher, okAnalyst, okFactChecker,
    ⟨false, ""⟩, fun _ => false⟩

/-- Oracles of a run in which the verify stage fails. -/
def verifyFailOracles : Oracles :=
  { demoOracles with factChecker := failedFactChecker }

/-- Oracles of a run whose first retrieve persists zero sources and whose
retry succeeds. -/
def retryOracles : Oracles :=
  { demoOracles with researcher1 := emptyResearcher }

/-- Oracles of a run that is cancelled before the first agent boundary. -/
def cancelOracles : Oracles :=
  { demoOracles with cancelAt := fun _ => true }

/-- Concrete caller arguments. -/
def demoInput : ExecInput :=
  ⟨"sid-1", "battery recycling in the EU", [], [], 50, "auto", "markdown",
    "APA"⟩

/-- The empty store of a fresh session. -/
def emptyStore : Store := ⟨[], [], []⟩

/-! ## Context and store lemmas -/

/-- Lookup of the key just set. -/
@[simp] theorem ctxLookup_ctxSet_self (c : Ctx) (k : String) (v : CtxVal) :
    ctxLookup (ctxSet c k v) k = some v := by
  induction c with
  | nil => simp [ctxSet, ctxLookup]
  | cons hd tl ih =>
      obtain ⟨k0, v0⟩ := hd
      by_cases h : k0 = k <;> simp [ctxSet, ctxLookup, h, ih]

/-- Lookup of a different key is unaffected by an update. -/
@[simp] theorem ctxLookup_ctxSet_ne (c : Ctx) (k k2 : String) (v : CtxVal)
    (h : k2 ≠ k) : ctxLookup (ctxSet c k2 v) k = ctxLookup c k := by
  induction c with
  | nil => simp [ctxSet, ctxLookup, h]
  | cons hd tl ih =>
      obtain ⟨k0, v0⟩ := hd
      by_cases h0 : k0 = k2
      · subst h0
        simp [ctxSet, ctxLookup, h]
      · by_cases h1 : k0 = k <;>
          simp [ctxSet, ctxLookup, h0, h1, ih, Ne.symm h]

/-- String read of the key just set to a string. -/
@[simp] theorem ctxGetStr_ctxSet_self (c : Ctx) (k s : String) :
    ctxGetStr (ctxSet c k (CtxVal.str s)) k = s := by
  simp [ctxGetStr]

/-- String read of a different key is unaffected by an update. -/
@[simp] theorem ctxGetStr_ctxSet_ne (c : Ctx) (k k2 : String) (v : CtxVal)
    (h : k2 ≠ k) : ctxGetStr (ctxSet c k2 v) k = ctxGetStr c k := by
  simp [ctxGetStr, ctxLookup_ctxSet_ne c k k2 v h]

/-- Numeric read of the key just set to a number. -/
@[simp] theorem ctxGetNat_ctxSet_self (c : Ctx) (k : String) (n d : Nat) :
    ctxGetNat (ctxSet c k (CtxVal.num n)) k d = n := by
  simp [ctxGetNat]

/-- Pipeline lookup of the key just written. -/
@[simp] theorem pipelineGetList_put_self (l : List (String × PipeVal))
    (k : String) (v : PipeVal) :
    pipelineGetList (pipelinePutList l k v) k = some v := by
  induction l with
  | nil => simp [pipelinePutList, pipelineGetList]
  | cons hd tl ih =>
      obtain ⟨k0, v0⟩ := hd
      by_cases h : k0 = k <;> simp [pipelinePutList, pipelineGetList, h, ih]

/-- Pipeline lookup through a store write. -/
@[simp] theorem pipelineGet_pipelinePut_self (st : Store) (k : String)
    (v : PipeVal) : pipelineGet (pipelinePut st k v) k = some v := by
  simp [pipelineGet, pipelinePut]

/-- Query of the safeguarded context is the original query. -/
@[simp] theorem ctxGetStr_safeguardedCtx (inp : ExecInput) (orc : Oracles) :
    ctxGetStr (safeguardedCtx inp orc) "query" = inp.query := by
  simp [safeguardedCtx]

/-- Query of the retry context is the broadened original query. -/
@[simp] theorem ctxGetStr_retryCtxOf (inp : ExecInput) (orc : Oracles) :
    ctxGetStr (retryCtxOf inp orc) "query"
      = inp.query ++ " overview research analysis" := by
  simp [retryCtxOf]

/-- Max sources of the retry context is raised to at least 100. -/
@[simp] theorem ctxGetNat_retryCtxOf (inp : ExecInput) (orc : Oracles) :
    ctxGetNat (retryCtxOf inp orc) "max_sources" 300
      = max inp.maxSources 100 := by
  simp [retryCtxOf, ctxGetNat]

/-- Query of the hand-off context is the original query. -/
@[simp] theorem ctxGetStr_handoffCtxOf (inp : ExecInput) (orc : Oracles)
    (counts : List (String × Nat)) :
    ctxGetStr (handoffCtxOf inp orc counts) "query" = inp.query := by
  simp [handoffCtxOf]

/-- Every context handed to an agent by the pipeline tail is the single
hand-off context. -/
theorem execTail_trace_sub (orc : Oracles) (idx : Nat) (ctx2 : Ctx)
    (st : Store) (tr : List (String × Ctx)) (errs : List String) :
    ∀ p ∈ (execTail orc idx ctx2 st tr errs).trace, p ∈ tr ∨ p.2 = ctx2 := by
  intro p hp
  unfold execTail at hp
  repeat' split at hp
  all_goals aesop

/-- The pipeline tail never invokes the researcher again: filtering its
trace for researcher entries gives back the prefix filter. -/
theorem execTail_trace_researcher (orc : Oracles) (idx : Nat) (ctx2 : Ctx)
    (st : Store) (tr : List (String × Ctx)) (errs : List String) :
    ((execTail orc idx ctx2 st tr errs).trace).filter
        (fun p => p.1 = "researcher")
      = tr.filter (fun p => p.1 = "researcher") := by
  simp only [execTail]
  split_ifs <;> simp [List.filter_append]

/-- Behaviour of the pipeline tail when the fact checker fails and
nothing is cancelled: the fallback confidence summary is persisted, the
error is recorded, the report stage still runs, and the run completes. -/
theorem execTail_verify_failure (orc : Oracles) (idx : Nat) (ctx2 : Ctx)
    (st : Store) (tr : List (String × Ctx)) (errs : List String)
    (hnc : ∀ k, orc.cancelAt k = false)
    (han : orc.analyst.failed = false)
    (hfc : orc.factChecker.failed = true)
    (hrg : orc.reportGen.failed = false) :
    (execTail orc idx ctx2 st tr errs).status = "completed"
      ∧ (execTail orc idx ctx2 st tr errs).errors
          = errs ++ ["Fact-checking incomplete"]
      ∧ pipelineGet (execTail orc idx ctx2 st tr errs).store
          "confidence_summary" = some (PipeVal.conf fallbackConfidence)
      ∧ ("report_generator", ctx2) ∈ (execTail orc idx ctx2 st tr errs).trace := by
  unfold execTail
  simp [hnc, han, hfc, hrg]

/-- Path of a run whose first retrieve persisted at least one source:
no retry, tail entered at check index 2. -/
theorem execute_path_noretry (s0 : OrchState) (inp : ExecInput)
    (orc : Oracles) (st0 : Store)
    (hnc0 : orc.cancelAt 0 = false) (hnc1 : orc.cancelAt 1 = false)
    (hap : orc.userProxy.approved = true)
    (hr1 : orc.researcher1.failed = false)
    (hz : countSources (persistResearcher st0 orc.researcher1) ≠ 0) :
    execute s0 inp orc st0
      = execTail orc 2 (handoffCtxOf inp orc orc.researcher1.sourcesCount)
          (persistResearcher st0 orc.researcher1)
          [("user_proxy", baseCtxOf inp),
           ("researcher", safeguardedCtx inp orc)] [] := by
  simp [execute, hnc0, hnc1, hap, hr1, hz]

/-- Path of a run whose first retrieve persisted zero sources and whose
retry execution succeeded. -/
theorem execute_path_retry_ok (s0 : OrchState) (inp : ExecInput)
    (orc : Oracles) (st0 : Store)
    (hnc0 : orc.cancelAt 0 = false) (hnc1 : orc.cancelAt 1 = false)
    (hnc2 : orc.cancelAt 2 = false)
    (hap : orc.userProxy.approved = true)
    (hr1 : orc.researcher1.failed = false)
    (hz : countSources (persistResearcher st0 orc.researcher1) = 0)
    (hr2 : orc.researcher2.failed = false) :
    execute s0 inp orc st0
      = execTail orc 3 (handoffCtxOf inp orc orc.researcher2.sourcesCount)
          (persistResearcher (persistResearcher st0 orc.researcher1)
            orc.researcher2)
          [("user_proxy", baseCtxOf inp),
           ("researcher", safeguardedCtx inp orc),
           ("researcher", retryCtxOf inp orc)] [] := by
  simp [execute, hnc0, hnc1, hnc2, hap, hr1, hz, hr2]

/-- Path of a run whose first retrieve persisted zero sources and whose
retry execution failed: the run continues with the first result. -/
theorem execute_path_retry_failed (s0 : OrchState) (inp : ExecInput)
    (orc : Oracles) (st0 : Store)
    (hnc0 : orc.cancelAt 0 = false) (hnc1 : orc.cancelAt 1 = false)
    (hnc2 : orc.cancelAt 2 = false)
    (hap : orc.userProxy.approved = true)
    (hr1 : orc.researcher1.failed = false)
    (hz : countSources (persistResearcher st0 orc.researcher1) = 0)
    (hr2 : orc.researcher2.failed = true) :
    execute s0 inp orc st0
      = execTail orc 3 (handoffCtxOf inp orc orc.researcher1.sourcesCount)
          (persistResearcher st0 orc.researcher1)
          [("user_proxy", baseCtxOf inp),
           ("researcher", safeguardedCtx inp orc),
           ("researcher", retryCtxOf inp orc)] [] := by
  simp [execute, hnc0, hnc1, hnc2, hap, hr1, hz, hr2]

/-- The pipeline tail never reports the cancelled status when the
cancellation flag is never set. -/
theorem execTail_not_cancelled (orc : Oracles) (idx : Nat) (ctx2 : Ctx)
    (st : Store) (tr : List (String × Ctx)) (errs : List String)
    (hnc : ∀ k, orc.cancelAt k = false) :
    (execTail orc idx ctx2 st tr errs).status ≠ "cancelled" := by
  simp only [execTail]
  split_ifs <;> simp_all

/-- Every trace entry of a run is the user proxy invocation, one of the
two researcher invocations, or an invocation carrying the hand-off
context built from one of the two researcher results. -/
theorem execute_trace_cases (s0 : OrchState) (inp : ExecInput)
    (orc : Oracles) (st0 : Store) :
    ∀ p ∈ (execute s0 inp orc st0).trace,
      p = ("user_proxy", baseCtxOf inp)
        ∨ p = ("researcher", safeguardedCtx inp orc)
        ∨ p = ("researcher", retryCtxOf inp orc)
        ∨ p.2 = handoffCtxOf inp orc orc.researcher1.sourcesCount
        ∨ p.2 = handoffCtxOf inp orc orc.researcher2.sourcesCount := by
  intro p hp
  by_cases hc0 : orc.cancelAt 0 = true
  · simp [execute, hc0] at hp
  · have hc0f : orc.cancelAt 0 = false := by simpa using hc0
    by_cases hap : orc.userProxy.approved = true
    · by_cases hc1 : orc.cancelAt 1 = true
      · simp [execute, hc0f, hap, hc1] at hp
        exact Or.inl hp
      · have hc1f : orc.cancelAt 1 = false := by simpa using hc1
        by_cases hr1 : orc.researcher1.failed = true
        · simp [execute, hc0f, hap, hc1f, hr1] at hp
          rcases hp with h | h
          · exact Or.inl h
          · exact Or.inr (Or.inl h)
        · have hr1f : orc.researcher1.failed = false := by simpa using hr1
          by_cases hz : countSources (persistResearcher st0 orc.researcher1)
              = 0
          · by_cases hc2 : orc.cancelAt 2 = true
            · simp [execute, hc0f, hap, hc1f, hr1f, hz, hc2] at hp
              rcases hp with h | h
              · exact Or.inl h
              · exact Or.inr (Or.inl h)
            · have hc2f : orc.cancelAt 2 = false := by simpa using hc2
              by_cases hr2 : orc.researcher2.failed = true
              · rw [execute_path_retry_failed s0 inp orc st0 hc0f hc1f hc2f
                  hap hr1f hz hr2] at hp
                rcases execTail_trace_sub _ _ _ _ _ _ p hp with h | h
                · simp only [List.mem_cons, List.not_mem_nil, or_false] at h
                  rcases h with h | h | h
                  · exact Or.inl h
                  · exact Or.inr (Or.inl h)
                  · exact Or.inr (Or.inr (Or.inl h))
                · exact Or.inr (Or.inr (Or.inr (Or.inl h)))
              · have hr2f : orc.researcher2.failed = false := by
                  simpa using hr2
                rw [execute_path_retry_ok s0 inp orc st0 hc0f hc1f hc2f
                  hap hr1f hz hr2f] at hp
                rcases execTail_trace_sub _ _ _ _ _ _ p hp with h | h
                · simp only [List.mem_cons, List.not_mem_nil, or_false] at h
                  rcases h with h | h | h
                  · exact Or.inl h
                  · exact Or.inr (Or.inl h)
                  · exact Or.inr (Or.inr (Or.inl h))
                · exact Or.inr (Or.inr (Or.inr (Or.inr h)))
          · rw [execute_path_noretry s0 inp orc st0 hc0f hc1f hap hr1f hz]
              at hp
            rcases execTail_trace_sub _ _ _ _ _ _ p hp with h | h
            · simp only [List.mem_cons, List.not_mem_nil, or_false] at h
              rcases h with h | h
              · exact Or.inl h
              · exact Or.inr (Or.inl h)
            · exact Or.inr (Or.inr (Or.inr (Or.inl h)))
    · simp [execute, hc0f, hap] at hp
      exact Or.inl hp

/-- Stable insertion permutes the extended list. -/
theorem insertDesc_perm (k : α → Nat) (s : α) (l : List α) :
    (insertDesc k s l).Perm (s :: l) := by
  induction l with
  | nil => simp [insertDesc]
  | cons x xs ih =>
      by_cases h : k x ≤ k s
      · simp [insertDesc, h]
      · simp only [insertDesc, h, if_false]
        exact ((ih.cons x).trans (List.Perm.swap s x xs))

/-- The stable descending sort permutes its input. -/
theorem sortDesc_perm (k : α → Nat) (l : List α) :
    (sortDesc k l).Perm l := by
  induction l with
  | nil => simp [sortDesc]
  | cons x xs ih =>
      exact (insertDesc_perm k x (sortDesc k xs)).trans (ih.cons x)

/-- Every element of the URL dedup has a non-empty URL outside the seen
set and comes from the input. -/
theorem mem_dedupByUrlGo :
    ∀ (l : List Source) (seen : List String) (x : Source),
      x ∈ dedupByUrlGo seen l → x.url ≠ "" ∧ x.url ∉ seen ∧ x ∈ l := by
  intro l
  induction l with
  | nil =>
      intro seen x hx
      simp [dedupByUrlGo] at hx
  | cons s rest ih =>
      intro seen x hx
      by_cases h : s.url ≠ "" ∧ s.url ∉ seen
      · simp only [dedupByUrlGo, if_pos h, List.mem_cons] at hx
        rcases hx with rfl | hx
        · exact ⟨h.1, h.2, List.mem_cons_self x rest⟩
        · obtain ⟨h1, h2, h3⟩ := ih (s.url :: seen) x hx
          refine ⟨h1, fun hc => h2 (List.mem_cons_of_mem _ hc),
            List.mem_cons_of_mem _ h3⟩
      · simp only [dedupByUrlGo, if_neg h] at hx
        obtain ⟨h1, h2, h3⟩ := ih seen x hx
        exact ⟨h1, h2, List.mem_cons_of_mem _ h3⟩

/-- The URL dedup yields pairwise distinct URLs. -/
theorem dedupByUrlGo_url_nodup :
    ∀ (l : List Source) (seen : List String),
      ((dedupByUrlGo seen l).map Source.url).Nodup := by
  intro l
  induction l with
  | nil =>
      intro seen
      simp [dedupByUrlGo]
  | cons s rest ih =>
      intro seen
      by_cases h : s.url ≠ "" ∧ s.url ∉ seen
      · simp only [dedupByUrlGo, if_pos h, List.map_cons, List.nodup_cons]
        constructor
        · intro hc
          obtain ⟨y, hy, hyu⟩ := List.mem_map.mp hc
          obtain ⟨_, h2, _⟩ := mem_dedupByUrlGo rest (s.url :: seen) y hy
          exact h2 (by rw [hyu]; exact List.mem_cons_self _ _)
        · exact ih (s.url :: seen)
      · simp only [dedupByUrlGo, if_neg h]
        exact ih seen

/-- For positive chunk size and enough fuel, concatenating the chunks
gives back the list. -/
theorem chunksFuel_flatten (n : Nat) (hn : 1 ≤ n) :
    ∀ (fuel : Nat) (l : List α), l.length ≤ fuel →
      (chunksFuel n fuel l).flatten = l := by
  intro fuel
  induction fuel with
  | zero =>
      intro l hl
      cases l with
      | nil => rfl
      | cons x xs => simp at hl
  | succ f ih =>
      intro l hl
      cases l with
      | nil => rfl
      | cons x xs =>
          simp only [chunksFuel, List.flatten_cons]
          rw [ih ((x :: xs).drop n) (by
            simp only [List.length_drop, List.length_cons]
            simp only [List.length_cons] at hl
            omega)]
          exact List.take_append_drop n (x :: xs)

/-- Concatenating the batches gives back the list. -/
theorem chunksOf_flatten (n : Nat) (hn : 1 ≤ n) (l : List α) :
    (chunksOf n l).flatten = l :=
  chunksFuel_flatten n hn l.length l (Nat.le_refl _)

/-- A batch selection keeps only elements of the batch. -/
theorem batchSelect_subset (resp : Except Unit String) (kws : List String)
    (batch : List Source) :
    ∀ x ∈ batchSelect resp kws batch, x ∈ batch := by
  intro x hx
  match resp with
  | Except.error _ => exact List.mem_of_mem_filter hx
  | Except.ok r =>
      simp only [batchSelect] at hx
      split at hx
      · simp at hx
      · obtain ⟨i, _, hi⟩ := List.mem_filterMap.mp hx
        obtain ⟨hlt, rfl⟩ := List.getElem?_eq_some_iff.mp hi
        exact List.getElem_mem hlt

/-- A batch selection from a duplicate-free batch is duplicate-free,
provided an LLM reply never lists an index twice. -/
theorem batchSelect_nodup (resp : Except Unit String) (kws : List String)
    (batch : List Source) (hb : batch.Nodup)
    (hsel : ∀ r, resp = Except.ok r → (parsedIndices (pyStrip r)).Nodup) :
    (batchSelect resp kws batch).Nodup := by
  match resp with
  | Except.error _ => exact hb.filter _
  | Except.ok r =>
      simp only [batchSelect]
      split
      · exact List.nodup_nil
      · refine List.Nodup.filterMap ?_ (hsel r rfl)
        intro a a' x hx hx'
        rw [Option.mem_def] at hx hx'
        exact List.getElem?_inj (List.getElem?_eq_some_iff.mp hx).1 hb
          (hx.trans hx'.symm)

/-- The concatenated batch selections keep only batch elements. -/
theorem selectChunks_subset (llm : Nat → Except Unit String)
    (kws : List String) :
    ∀ (cs : List (List Source)) (i : Nat),
      ∀ x ∈ selectChunks llm kws i cs, x ∈ cs.flatten := by
  intro cs
  induction cs with
  | nil =>
      intro i x hx
      simp [selectChunks] at hx
  | cons b rest ih =>
      intro i x hx
      simp only [selectChunks, List.mem_append] at hx
      rw [List.flatten_cons]
      rcases hx with hx | hx
      · exact List.mem_append.mpr (Or.inl (batchSelect_subset _ _ _ x hx))
      · exact List.mem_append.mpr (Or.inr (ih (i + 1) x hx))

/-- The concatenated batch selections are duplicate-free when the
concatenated batches are and no reply lists an index twice. -/
theorem selectChunks_nodup (llm : Nat → Except Unit String)
    (kws : List String)
    (hsel : ∀ j r, llm j = Except.ok r → (parsedIndices (pyStrip r)).Nodup) :
    ∀ (cs : List (List Source)) (i : Nat), cs.flatten.Nodup →
      (selectChunks llm kws i cs).Nodup := by
  intro cs
  induction cs with
  | nil =>
      intro i _
      exact List.nodup_nil
  | cons b rest ih =>
      intro i hflat
      rw [List.flatten_cons] at hflat
      obtain ⟨hb, hrest, hdisj⟩ := List.nodup_append.mp hflat
      refine List.nodup_append.mpr
        ⟨batchSelect_nodup _ _ _ hb (fun r hr => hsel i r hr),
          ih (i + 1) hrest, ?_⟩
      intro a ha hb2
      exact hdisj (batchSelect_subset _ _ _ a ha)
        (selectChunks_subset llm kws rest (i + 1) a hb2)

/-- The refill only adds pool elements. -/
theorem refillGo_subset :
    ∀ (pool rel : List Source), ∀ x ∈ refillGo rel pool,
      x ∈ rel ∨ x ∈ pool := by
  intro pool
  induction pool with
  | nil =>
      intro rel x hx
      exact Or.inl hx
  | cons s rest ih =>
      intro rel x hx
      simp only [refillGo] at hx
      by_cases hm : s ∈ rel
      · rw [if_pos hm] at hx
        split at hx
        · exact Or.inl hx
        · rcases ih rel x hx with h | h
          · exact Or.inl h
          · exact Or.inr (List.mem_cons_of_mem _ h)
      · rw [if_neg hm] at hx
        split at hx
        · rcases List.mem_append.mp hx with h | h
          · exact Or.inl h
          · simp only [List.mem_singleton] at h
            exact Or.inr (by simp [h])
        · rcases ih (rel ++ [s]) x hx with h | h
          · rcases List.mem_append.mp h with h | h
            · exact Or.inl h
            · simp only [List.mem_singleton] at h
              exact Or.inr (by simp [h])
          · exact Or.inr (List.mem_cons_of_mem _ h)

/-- The refill preserves duplicate-freedom: it only appends elements not
already present. -/
theorem refillGo_nodup :
    ∀ (pool rel : List Source), rel.Nodup → (refillGo rel pool).Nodup := by
  intro pool
  induction pool with
  | nil =>
      intro rel h
      exact h
  | cons s rest ih =>
      intro rel h
      simp only [refillGo]
      by_cases hm : s ∈ rel
      · rw [if_pos hm]
        split
        · exact h
        · exact ih rel h
      · have h2 : (rel ++ [s]).Nodup :=
          List.nodup_append.mpr
            ⟨h, List.nodup_singleton s, by simpa using hm⟩
        rw [if_neg hm]
        split
        · exact h2
        · exact ih _ h2

/-- The relevance filter keeps only input sources. -/
theorem filterRelevantSources_subset (query : String)
    (llm : Nat → Except Unit String) (sources : List Source) :
    ∀ x ∈ filterRelevantSources query llm sources, x ∈ sources := by
  intro x hx
  simp only [filterRelevantSources] at hx
  split at hx
  · simp at hx
  · have hsorted : ∀ y : Source,
        y ∈ sortDesc (scoreNum (queryKeywords query)) sources →
          y ∈ sources := by
      intro y hy
      exact (sortDesc_perm _ sources).mem_iff.mp hy
    have hsel : ∀ y : Source,
        y ∈ selectChunks llm (queryKeywords query) 0
            (chunksOf 20
              ((sortDesc (scoreNum (queryKeywords query)) sources).take 150)) →
          y ∈ sources := by
      intro y hy
      have := selectChunks_subset llm (queryKeywords query) _ 0 y hy
      rw [chunksOf_flatten 20 (by omega)] at this
      exact hsorted y (List.mem_of_mem_take this)
    split at hx
    · rcases refillGo_subset _ _ x hx with hx2 | hx2
      · exact hsel x hx2
      · exact hsorted x (List.mem_of_mem_take hx2)
    · exact hsel x hx

/-- The relevance filter output is duplicate-free for duplicate-free
input, provided no reply lists an index twice. -/
theorem filterRelevantSources_nodup (query : String)
    (llm : Nat → Except Unit String) (sources : List Source)
    (hs : sources.Nodup)
    (hsel : ∀ j r, llm j = Except.ok r → (parsedIndices (pyStrip r)).Nodup) :
    (filterRelevantSources query llm sources).Nodup := by
  simp only [filterRelevantSources]
  split
  · exact List.nodup_nil
  · have hsorted : (sortDesc (scoreNum (queryKeywords query)) sources).Nodup :=
      (sortDesc_perm _ sources).symm.nodup hs
    have hcands :
        ((sortDesc (scoreNum (queryKeywords query)) sources).take 150).Nodup :=
      (List.take_sublist _ _).nodup hsorted
    have hflat :
        (chunksOf 20
            ((sortDesc (scoreNum (queryKeywords query)) sources).take 150)
          ).flatten.Nodup := by
      rw [chunksOf_flatten 20 (by omega)]
      exact hcands
    have hrel := selectChunks_nodup llm (queryKeywords query) hsel _ 0 hflat
    split
    · exact refillGo_nodup _ _ hrel
    · exact hrel

/-- Callbacks filtered by provider are as frequent as that provider in
the completion order. -/
theorem callbacksGo_filter_api (outcome : Provider → Except Unit (List Source))
    (pr : Provider) :
    ∀ (order : List Provider) (d : Nat),
      ((callbacksGo outcome d order).filter (fun c => c.api = pr)).length
        = (order.filter (fun x => x = pr)).length := by
  intro order
  induction order with
  | nil => intro d; rfl
  | cons hd tl ih =>
      intro d
      by_cases h : hd = pr <;>
        simp [callbacksGo, List.filter_cons, h, ih (d + 1)]

/-- Completion counters reported to the callback are 1, 2, 3, … in
completion order. -/
theorem callbacksGo_map_done (outcome : Provider → Except Unit (List Source)) :
    ∀ (order : List Provider) (d : Nat),
      (callbacksGo outcome d order).map (fun c => c.done)
        = (List.range order.length).map (fun i => d + i + 1) := by
  intro order
  induction order with
  | nil => intro d; rfl
  | cons hd tl ih =>
      intro d
      have hfun : (fun i => d + 1 + i + 1) = fun i => d + (i + 1) + 1 := by
        funext i
        omega
      simp [callbacksGo, ih (d + 1), List.range_succ_eq_map, List.map_map,
        Function.comp, Nat.succ_eq_add_one, hfun]

/-- Each callback invocation reports the result count of its own
provider and the fixed provider total. -/
theorem callbacksGo_mem (outcome : Provider → Except Unit (List Source)) :
    ∀ (order : List Provider) (d : Nat) (c : CallbackCall),
      c ∈ callbacksGo outcome d order →
        c.count = (settleProvider (outcome c.api)).length
          ∧ c.total = allProviders.length := by
  intro order
  induction order with
  | nil =>
      intro d c hc
      simp [callbacksGo] at hc
  | cons hd tl ih =>
      intro d c hc
      simp only [callbacksGo, List.mem_cons] at hc
      rcases hc with rfl | hc
      · exact ⟨rfl, rfl⟩
      · exact ih (d + 1) c hc

/-- Key of `storePut` is immediately visible to `storeLookup`. -/
theorem storeLookup_storePut (st : RedisStore) (k : String) (e : CacheEntry) :
    storeLookup (storePut st k e) k = some e := by
  induction st with
  | nil => simp [storePut, storeLookup]
  | cons hd tl ih =>
      obtain ⟨k0, e0⟩ := hd
      by_cases h : k0 = k <;> simp [storePut, storeLookup, h, ih]

/-- C8 counterexample: calling the cache set operation with TTL 0 does
store the value (Python `ttl or settings.cache_ttl` replaces 0 by the
24-hour default), so a subsequent get within the default TTL is a HIT,
not the MISS the claim requires. -/
theorem cache_set_zero_ttl_stores :
    cacheGet true (cacheSet true [] 0 "k" "v" (some 0)) 1 "k" = some "v" := by
  decide

/-- C8 amended: a strictly negative TTL stores nothing (the backend
rejects the expiry and the error is swallowed), so a get for a key not
otherwise stored returns MISS; a TTL of exactly 0 falls back to the
default TTL of 86400 seconds and the value is stored and readable before
expiry. -/
theorem cache_set_nonpositive_ttl (st : RedisStore) (k v : String)
    (t now now2 : Int) (hneg : t < 0) (habsent : storeLookup st k = none) :
    cacheGet true (cacheSet true st now k v (some t)) now2 k = none
      ∧ cacheGet true (cacheSet true st now k v (some 0)) (now + 1) k
          = some v := by
  constructor
  · have ht0 : ¬ (t = 0) := by omega
    have hle : t ≤ 0 := by omega
    simp [cacheGet, cacheSet, redisSetex, ht0, hle, redisGet, habsent]
  · have hpos : ¬ (cacheTtlDefault ≤ (0 : Int)) := by decide
    simp only [cacheGet, cacheSet, redisSetex, hpos, if_true, if_false,
      if_neg hpos, redisGet, storeLookup_storePut]
    have : now + 1 < now + cacheTtlDefault := by
      have : (1 : Int) < cacheTtlDefault := by decide
      omega
    simp [this]

/-- Witness for `cache_set_nonpositive_ttl` at a concrete input. -/
theorem cache_set_nonpositive_ttl_witness :
    (-1 : Int) < 0 ∧ storeLookup [] "k" = none
      ∧ (cacheGet true (cacheSet true [] 0 "k" "v" (some (-1))) 5 "k" = none
          ∧ cacheGet true (cacheSet true [] 0 "k" "v" (some 0)) (0 + 1) "k"
              = some "v") :=
  ⟨by decide, by decide,
    cache_set_nonpositive_ttl [] "k" "v" (-1) 0 5 (by decide) (by decide)⟩

/-- C9: finding extraction is offered at most 40 sources in either mode,
because `execute` truncates to `relevant_sources[:40]` before
`_extract_key_info` applies its 45/60 cap: with 50 relevant sources in
standard mode only 40 are offered, not the 45 the claim states, and with
70 in deep mode only 40, not 60. -/
theorem extraction_offered_capped_at_forty :
    (offeredForExtraction (demoSources 50) false).length = 40
      ∧ (offeredForExtraction (demoSources 70) true).length = 40
      ∧ extractMaxToProcess false = 45 ∧ extractMaxToProcess true = 60 := by
  decide

/-- C1: after the clarify stage the query carried in the hand-off context
and used by every downstream stage equals the caller-provided original
query; the only researcher context with a different query is the
deterministic broadened retry, and the user proxy carries the
LLM-clarified variant only under the separate `search_hints` key, never
under `query`. -/
theorem clarified_query_never_replaces_original
    (s0 : OrchState) (inp : ExecInput) (orc : Oracles) (st0 : Store) :
    (∀ p ∈ (execute s0 inp orc st0).trace, p.1 ≠ "user_proxy" →
        ctxGetStr p.2 "query" = inp.query
          ∨ (p.1 = "researcher"
              ∧ ctxGetStr p.2 "query"
                  = inp.query ++ " overview research analysis"))
      ∧ (∀ q clar : String, ∀ octx : Ctx,
          ctxGetStr (prepareFinalContext q clar none [] [] octx) "query" = q
            ∧ ctxGetStr (prepareFinalContext q clar none [] [] octx)
                "search_hints" = if clar = q then "" else clar) := by
  constructor
  · intro p hp hne
    rcases execute_trace_cases s0 inp orc st0 p hp with h | h | h | h | h
    · subst h
      exact absurd rfl hne
    · subst h
      exact Or.inl (by simp)
    · subst h
      exact Or.inr ⟨rfl, by simp⟩
    · exact Or.inl (by rw [h]; simp)
    · exact Or.inl (by rw [h]; simp)
  · intro q clar octx
    refine ⟨by simp [prepareFinalContext, ctxGetStr, ctxLookup], ?_⟩
    by_cases h : clar = q <;>
      simp [prepareFinalContext, ctxGetStr, ctxLookup, h]

/-- Witness for `clarified_query_never_replaces_original` at a concrete
fully-successful run: the analyst receives the hand-off context and its
query is the original query. -/
theorem clarified_query_never_replaces_original_witness :
    ("analyst", handoffCtxOf demoInput demoOracles [("google", 1)])
        ∈ (execute ⟨false⟩ demoInput demoOracles emptyStore).trace
      ∧ (ctxGetStr (handoffCtxOf demoInput demoOracles [("google", 1)])
            "query" = demoInput.query
          ∨ ("analyst" = "researcher"
              ∧ ctxGetStr (handoffCtxOf demoInput demoOracles [("google", 1)])
                  "query"
                  = demoInput.query ++ " overview research analysis")) :=
  ⟨by decide,
    (clarified_query_never_replaces_original ⟨false⟩ demoInput demoOracles
        emptyStore).1
      ("analyst", handoffCtxOf demoInput demoOracles [("google", 1)])
      (by decide) (by decide)⟩

/-- C2: when the verify stage fails (exception or timeout alike), the run
is not marked failed: the error is recorded, the fallback confidence
summary with overall 0.5 and level medium is persisted, the report stage
still runs, and a successful report ends the run with status completed. -/
theorem verify_failure_run_completes
    (s0 : OrchState) (inp : ExecInput) (orc : Oracles) (st0 : Store)
    (hnc : ∀ k, orc.cancelAt k = false)
    (hap : orc.userProxy.approved = true)
    (hr1 : orc.researcher1.failed = false)
    (han : orc.analyst.failed = false)
    (hfc : orc.factChecker.failed = true)
    (hrg : orc.reportGen.failed = false) :
    (execute s0 inp orc st0).status = "completed"
      ∧ "Fact-checking incomplete" ∈ (execute s0 inp orc st0).errors
      ∧ pipelineGet (execute s0 inp orc st0).store "confidence_summary"
          = some (PipeVal.conf fallbackConfidence)
      ∧ (∃ c, ("report_generator", c) ∈ (execute s0 inp orc st0).trace)
      ∧ fallbackConfidence.overall = 1 / 2
      ∧ fallbackConfidence.level = "medium" := by
  by_cases hz : countSources (persistResearcher st0 orc.researcher1) = 0
  · by_cases hr2 : orc.researcher2.failed = true
    · rw [execute_path_retry_failed s0 inp orc st0 (hnc 0) (hnc 1) (hnc 2)
        hap hr1 hz hr2]
      obtain ⟨h1, h2, h3, h4⟩ :=
        execTail_verify_failure orc 3
          (handoffCtxOf inp orc orc.researcher1.sourcesCount)
          (persistResearcher st0 orc.researcher1)
          [("user_proxy", baseCtxOf inp),
           ("researcher", safeguardedCtx inp orc),
           ("researcher", retryCtxOf inp orc)] [] hnc han hfc hrg
      exact ⟨h1, by rw [h2]; simp, h3, ⟨_, h4⟩, rfl, rfl⟩
    · have hr2f : orc.researcher2.failed = false := by simpa using hr2
      rw [execute_path_retry_ok s0 inp orc st0 (hnc 0) (hnc 1) (hnc 2)
        hap hr1 hz hr2f]
      obtain ⟨h1, h2, h3, h4⟩ :=
        execTail_verify_failure orc 3
          (handoffCtxOf inp orc orc.researcher2.sourcesCount)
          (persistResearcher (persistResearcher st0 orc.researcher1)
            orc.researcher2)
          [("user_proxy", baseCtxOf inp),
           ("researcher", safeguardedCtx inp orc),
           ("researcher", retryCtxOf inp orc)] [] hnc han hfc hrg
      exact ⟨h1, by rw [h2]; simp, h3, ⟨_, h4⟩, rfl, rfl⟩
  · rw [execute_path_noretry s0 inp orc st0 (hnc 0) (hnc 1) hap hr1 hz]
    obtain ⟨h1, h2, h3, h4⟩ :=
      execTail_verify_failure orc 2
        (handoffCtxOf inp orc orc.researcher1.sourcesCount)
        (persistResearcher st0 orc.researcher1)
        [("user_proxy", baseCtxOf inp),
         ("researcher", safeguardedCtx inp orc)] [] hnc han hfc hrg
    exact ⟨h1, by rw [h2]; simp, h3, ⟨_, h4⟩, rfl, rfl⟩

/-- Witness for `verify_failure_run_completes` at a concrete run whose
fact checker fails. -/
theorem verify_failure_run_completes_witness :
    (∀ k, verifyFailOracles.cancelAt k = false)
      ∧ ((execute ⟨false⟩ demoInput verifyFailOracles emptyStore).status
            = "completed"
          ∧ "Fact-checking incomplete"
              ∈ (execute ⟨false⟩ demoInput verifyFailOracles emptyStore).errors
          ∧ pipelineGet
              (execute ⟨false⟩ demoInput verifyFailOracles emptyStore).store
              "confidence_summary" = some (PipeVal.conf fallbackConfidence)
          ∧ (∃ c, ("report_generator", c)
              ∈ (execute ⟨false⟩ demoInput verifyFailOracles emptyStore).trace)
          ∧ fallbackConfidence.overall = 1 / 2
          ∧ fallbackConfidence.level = "medium") :=
  ⟨fun _ => rfl,
    verify_failure_run_completes ⟨false⟩ demoInput verifyFailOracles
      emptyStore (fun _ => rfl) rfl rfl rfl rfl rfl⟩

/-- C3: when the first retrieve persists zero sources the researcher runs
exactly one additional time, on the original query broadened by the fixed
suffix with max sources raised to at least 100; when at least one source
is persisted there is no retry. -/
theorem zero_source_retry_exactly_once
    (s0 : OrchState) (inp : ExecInput) (orc : Oracles) (st0 : Store)
    (hs0 : st0.sources = [])
    (hnc : ∀ k, orc.cancelAt k = false)
    (hap : orc.userProxy.approved = true)
    (hr1 : orc.researcher1.failed = false) :
    (orc.researcher1.sources = [] →
        researcherInvocations (execute s0 inp orc st0)
          = [("researcher", safeguardedCtx inp orc),
             ("researcher", retryCtxOf inp orc)]
          ∧ ctxGetStr (retryCtxOf inp orc) "query"
              = inp.query ++ " overview research analysis"
          ∧ ctxGetNat (retryCtxOf inp orc) "max_sources" 300
              = max inp.maxSources 100
          ∧ 100 ≤ max inp.maxSources 100)
      ∧ (orc.researcher1.sources ≠ [] →
          researcherInvocations (execute s0 inp orc st0)
            = [("researcher", safeguardedCtx inp orc)]) := by
  constructor
  · intro hz
    have hcount : countSources (persistResearcher st0 orc.researcher1) = 0 := by
      simp [countSources, persistResearcher, hs0, hz]
    by_cases hr2 : orc.researcher2.failed = true
    · rw [researcherInvocations,
        execute_path_retry_failed s0 inp orc st0 (hnc 0) (hnc 1) (hnc 2)
          hap hr1 hcount hr2,
        execTail_trace_researcher]
      exact ⟨by simp, by simp, by simp, le_max_right _ _⟩
    · have hr2f : orc.researcher2.failed = false := by simpa using hr2
      rw [researcherInvocations,
        execute_path_retry_ok s0 inp orc st0 (hnc 0) (hnc 1) (hnc 2)
          hap hr1 hcount hr2f,
        execTail_trace_researcher]
      exact ⟨by simp, by simp, by simp, le_max_right _ _⟩
  · intro hz
    have hlen : orc.researcher1.sources.length ≠ 0 := by
      simpa [List.length_eq_zero] using hz
    have hcount : countSources (persistResearcher st0 orc.researcher1) ≠ 0 := by
      have hmin : (persistResearcher st0 orc.researcher1).sources.length
          = min 200 orc.researcher1.sources.length := by
        simp [persistResearcher, hs0, List.length_take]
      simp only [countSources, hmin]
      omega
    rw [researcherInvocations,
      execute_path_noretry s0 inp orc st0 (hnc 0) (hnc 1) hap hr1 hcount,
      execTail_trace_researcher]
    simp

/-- Witness for `zero_source_retry_exactly_once` at a concrete run whose
first retrieve persists zero sources. -/
theorem zero_source_retry_exactly_once_witness :
    emptyStore.sources = [] ∧ retryOracles.researcher1.sources = []
      ∧ (researcherInvocations
            (execute ⟨false⟩ demoInput retryOracles emptyStore)
          = [("researcher", safeguardedCtx demoInput retryOracles),
             ("researcher", retryCtxOf demoInput retryOracles)]
          ∧ ctxGetStr (retryCtxOf demoInput retryOracles) "query"
              = demoInput.query ++ " overview research analysis"
          ∧ ctxGetNat (retryCtxOf demoInput retryOracles) "max_sources" 300
              = max demoInput.maxSources 100
          ∧ 100 ≤ max demoInput.maxSources 100) :=
  ⟨rfl, rfl,
    (zero_source_retry_exactly_once ⟨false⟩ demoInput retryOracles emptyStore
        rfl (fun _ => rfl) rfl rfl).1 rfl⟩

/-- C10: `execute` resets the cancellation flag at entry, so a cancel
issued before the run starts is discarded (the run is identical to one
started without it); cancellation takes effect only through the flag set
after the start, checked at each agent boundary, and a run during which
the flag is never set is never cancelled. -/
theorem precancel_discarded (inp : ExecInput) (orc : Oracles) (st0 : Store) :
    execute ⟨true⟩ inp orc st0 = execute ⟨false⟩ inp orc st0
      ∧ (orc.cancelAt 0 = true →
          (execute ⟨true⟩ inp orc st0).status = "cancelled")
      ∧ ((∀ k, orc.cancelAt k = false) →
          (execute ⟨true⟩ inp orc st0).status ≠ "cancelled") := by
  refine ⟨rfl, ?_, ?_⟩
  · intro h
    simp [execute, h]
  · intro hnc
    by_cases hap : orc.userProxy.approved = true
    · by_cases hr1 : orc.researcher1.failed = true
      · simp [execute, hnc, hap, hr1]
      · have hr1f : orc.researcher1.failed = false := by simpa using hr1
        by_cases hz : countSources (persistResearcher st0 orc.researcher1)
            = 0
        · by_cases hr2 : orc.researcher2.failed = true
          · rw [execute_path_retry_failed ⟨true⟩ inp orc st0 (hnc 0) (hnc 1)
              (hnc 2) hap hr1f hz hr2]
            exact execTail_not_cancelled _ _ _ _ _ _ hnc
          · have hr2f : orc.researcher2.failed = false := by simpa using hr2
            rw [execute_path_retry_ok ⟨true⟩ inp orc st0 (hnc 0) (hnc 1)
              (hnc 2) hap hr1f hz hr2f]
            exact execTail_not_cancelled _ _ _ _ _ _ hnc
        · rw [execute_path_noretry ⟨true⟩ inp orc st0 (hnc 0) (hnc 1) hap
            hr1f hz]
          exact execTail_not_cancelled _ _ _ _ _ _ hnc
    · simp [execute, hnc, hap]

/-- Witness for `precancel_discarded` at concrete runs: one cancelled at
the first boundary, one never cancelled. -/
theorem precancel_discarded_witness :
    (cancelOracles.cancelAt 0 = true
        ∧ (execute ⟨true⟩ demoInput cancelOracles emptyStore).status
            = "cancelled")
      ∧ ((∀ k, demoOracles.cancelAt k = false)
        ∧ (execute ⟨true⟩ demoInput demoOracles emptyStore).status
            ≠ "cancelled") :=
  ⟨⟨rfl, (precancel_discarded demoInput cancelOracles emptyStore).2.1 rfl⟩,
    ⟨fun _ => rfl,
      (precancel_discarded demoInput demoOracles emptyStore).2.2
        (fun _ => rfl)⟩⟩

/-- C7: in a concrete fully-successful run the store holds the persisted
sources and organized findings, the fact checker (reading by session id)
sees them, the hand-off context carries only lightweight keys — but the
report generator, which reads its inputs from the context dict only (its
model takes no store argument, mirroring report_generator.py which
performs no store reads), receives empty findings and sources. -/
theorem report_stage_reads_context_not_store :
    pipelineGet (execute ⟨false⟩ demoInput demoOracles emptyStore).store
        "organized_findings" = some (PipeVal.fnds [demoFinding])
      ∧ (execute ⟨false⟩ demoInput demoOracles emptyStore).store.sources
          = [demoSource]
      ∧ ((execute ⟨false⟩ demoInput demoOracles emptyStore).trace.filter
            (fun p => p.1 = "fact_checker")).map
          (fun p => factCheckerLoadedFindings p.2
            (execute ⟨false⟩ demoInput demoOracles emptyStore).store)
          = [[demoFinding]]
      ∧ ((execute ⟨false⟩ demoInput demoOracles emptyStore).trace.filter
            (fun p => p.1 = "report_generator")).map
          (fun p => reportGeneratorInputs p.2) = [⟨[], []⟩]
      ∧ (execute ⟨false⟩ demoInput demoOracles emptyStore).trace.all
          (fun p => p.2.all (fun kv => lightweightKeys.contains kv.1))
          = true := by
  decide

/-- C6: whatever the per-provider outcomes, the fan-out returns (never
raises — each call is wrapped by the total `settleProvider`): a map whose
keys are exactly the five providers in fixed order, mapping every
provider that raised or returned nothing to the empty list; and for any
completion order of the five providers, the callback is invoked exactly
once per provider, carrying that provider's own result count, the fixed
total, and completion counters 1..5 in completion order. -/
theorem fanout_failure_isolation_and_callbacks
    (outcome : Provider → Except Unit (List Source)) (order : List Provider)
    (hperm : order.Perm allProviders) :
    (searchAllMap outcome).map Prod.fst = allProviders
      ∧ (∀ pr, outcome pr = Except.error () →
          mapLookup (searchAllMap outcome) pr = some [])
      ∧ (∀ pr, outcome pr = Except.ok [] →
          mapLookup (searchAllMap outcome) pr = some [])
      ∧ (∀ pr, ((searchAllCallbacks outcome order).filter
            (fun c => c.api = pr)).length = 1)
      ∧ (∀ c ∈ searchAllCallbacks outcome order,
          c.count = (settleProvider (outcome c.api)).length ∧ c.total = 5)
      ∧ (searchAllCallbacks outcome order).map (fun c => c.done)
          = (List.range order.length).map (fun i => i + 1) := by
  refine ⟨by simp only [searchAllMap, List.map_map]; rfl, ?_, ?_, ?_, ?_, ?_⟩
  · intro pr h
    cases pr <;>
      simp [searchAllMap, allProviders, mapLookup, settleProvider, h]
  · intro pr h
    cases pr <;>
      simp [searchAllMap, allProviders, mapLookup, settleProvider, h]
  · intro pr
    rw [searchAllCallbacks, callbacksGo_filter_api,
      (hperm.filter (fun x => decide (x = pr))).length_eq]
    cases pr <;> decide
  · intro c hc
    exact callbacksGo_mem outcome order 0 c hc
  · rw [searchAllCallbacks, callbacksGo_map_done]
    simp

/-- Witness for `fanout_failure_isolation_and_callbacks` at a concrete
outcome assignment in which one provider raises and one returns nothing,
with a completion order different from the key order. -/
theorem fanout_failure_isolation_and_callbacks_witness :
    ([Provider.wikipedia, Provider.google, Provider.pubmed, Provider.arxiv,
        Provider.newsapi].Perm allProviders)
      ∧ ((searchAllMap fanoutDemoOutcome).map Prod.fst = allProviders
          ∧ (∀ pr, fanoutDemoOutcome pr = Except.error () →
              mapLookup (searchAllMap fanoutDemoOutcome) pr = some [])
          ∧ (∀ pr, fanoutDemoOutcome pr = Except.ok [] →
              mapLookup (searchAllMap fanoutDemoOutcome) pr = some [])
          ∧ (∀ pr, ((searchAllCallbacks fanoutDemoOutcome
                [Provider.wikipedia, Provider.google, Provider.pubmed,
                 Provider.arxiv, Provider.newsapi]).filter
                (fun c => c.api = pr)).length = 1)
          ∧ (∀ c ∈ searchAllCallbacks fanoutDemoOutcome
                [Provider.wikipedia, Provider.google, Provider.pubmed,
                 Provider.arxiv, Provider.newsapi],
              c.count = (settleProvider (fanoutDemoOutcome c.api)).length
                ∧ c.total = 5)
          ∧ (searchAllCallbacks fanoutDemoOutcome
                [Provider.wikipedia, Provider.google, Provider.pubmed,
                 Provider.arxiv, Provider.newsapi]).map (fun c => c.done)
              = List.map (fun i => i + 1)
                  (List.range
                    ([Provider.wikipedia, Provider.google, Provider.pubmed,
                      Provider.arxiv, Provider.newsapi]
                      : List Provider).length)) :=
  ⟨by decide,
    fanout_failure_isolation_and_callbacks fanoutDemoOutcome
      [Provider.wikipedia, Provider.google, Provider.pubmed, Provider.arxiv,
       Provider.newsapi] (by decide)⟩

/-- C5 amended: for every input source list and every max-source cap, a
single retrieve execution returns at most `maxSources` sources, all with
non-empty URLs — unconditionally; and provided every LLM relevance reply
lists each batch index at most once, the kept sources additionally have
pairwise distinct URLs. -/
theorem retrieve_output_invariants (query : String)
    (llm : Nat → Except Unit String) (allSources : List Source)
    (maxSources : Nat) :
    (researcherSelectSources query llm allSources maxSources).length
        ≤ maxSources
      ∧ (∀ s ∈ researcherSelectSources query llm allSources maxSources,
          s.url ≠ "")
      ∧ ((∀ i r, llm i = Except.ok r →
            (parsedIndices (pyStrip r)).Nodup) →
          ((researcherSelectSources query llm allSources maxSources).map
            Source.url).Nodup) := by
  have huniqUrl : ((dedupByUrl allSources).map Source.url).Nodup :=
    dedupByUrlGo_url_nodup allSources []
  have hmemU : ∀ x ∈ dedupByUrl allSources, x.url ≠ "" := by
    intro x hx
    exact (mem_dedupByUrlGo allSources [] x hx).1
  have hsub : ∀ x ∈ researcherSelectSources query llm allSources maxSources,
      x ∈ dedupByUrl allSources := by
    intro x hx
    exact filterRelevantSources_subset query llm _ x
      (List.mem_of_mem_take hx)
  refine ⟨List.length_take_le _ _, fun s hs => hmemU s (hsub s hs), ?_⟩
  intro hsel
  have huniqNodup : (dedupByUrl allSources).Nodup :=
    List.Nodup.of_map Source.url huniqUrl
  have hfilterNodup :=
    filterRelevantSources_nodup query llm _ huniqNodup hsel
  have hfinalNodup :
      (researcherSelectSources query llm allSources maxSources).Nodup :=
    (List.take_sublist _ _).nodup hfilterNodup
  refine List.Nodup.map_on ?_ hfinalNodup
  intro x hx y hy hxy
  exact List.inj_on_of_nodup_map huniqUrl (hsub x hx) (hsub y hy) hxy

/-- Counterexample to C5 as stated: an LLM relevance reply that lists
index 0 twice makes the filter append the same source twice (the loop in
researcher.py lines 318-322 appends once per parsed index), so the
returned sources do not have pairwise distinct URLs. -/
theorem duplicate_reply_breaks_distinct_urls :
    researcherSelectSources "qq" (fun _ => Except.ok "0, 0")
        [⟨"qq", "u", "", "web", "g"⟩] 5
      = [⟨"qq", "u", "", "web", "g"⟩, ⟨"qq", "u", "", "web", "g"⟩]
      ∧ ¬ (List.map Source.url (researcherSelectSources "qq"
          (fun _ => Except.ok "0, 0")
          [⟨"qq", "u", "", "web", "g"⟩] 5)).Nodup :=
  ⟨by decide, by decide⟩

/-- Witness for `retrieve_output_invariants` at a concrete run whose
single reply lists index 0 once: the unconditional conjuncts apply
directly and the duplicate-free-reply premise of the distinct-URL
conjunct is discharged concretely. -/
theorem retrieve_output_invariants_witness :
    (researcherSelectSources "qq" (fun _ => Except.ok "0")
          [⟨"qq", "u", "", "web", "g"⟩] 5).length ≤ 5
      ∧ (∀ s ∈ researcherSelectSources "qq" (fun _ => Except.ok "0")
          [⟨"qq", "u", "", "web", "g"⟩] 5, s.url ≠ "")
      ∧ ((researcherSelectSources "qq" (fun _ => Except.ok "0")
          [⟨"qq", "u", "", "web", "g"⟩] 5).map Source.url).Nodup := by
  have h := retrieve_output_invariants "qq" (fun _ => Except.ok "0")
    [⟨"qq", "u", "", "web", "g"⟩] 5
  refine ⟨h.1, h.2.1, h.2.2 ?_⟩
  intro i r hr
  injection hr with h2
  subst h2
  decide

end ResearchPipeline
